import Mathlib

/-!
Shallow embedding of the application discovery and icon resolution pipeline of
`src-tauri/src/lib.rs` (erimeilis/launchpad), together with proofs about it.

The filesystem, the property-list parser, the external `sips` rasterizer and the
on-disk icon cache are external collaborators of the code; they are modelled as
explicit function-valued state (`FS`, `CacheFS`, a `rasterize` parameter).
Paths are modelled as strings joined with `"/"`, mirroring `Path::join` on the
relative components the code uses.  Scan enumeration (`WalkDir`) is modelled by
giving the pipeline the list of candidate bundle directories in the fixed
root-scan order produced by the hard-coded sequence of
`scan_applications_directory_fast` calls.
-/

namespace Launchpad

/-! ### Generic list helpers -/

/-- Fuel-driven chunking.  `chunksOfAux n fuel l` splits `l` into consecutive
slices of length `n` (last one possibly shorter); `fuel ≥ l.length` steps always
suffice when `n > 0`.  Structural recursion on the fuel keeps the definition
kernel-reducible. -/
def chunksOfAux (n : Nat) : Nat → List α → List (List α)
  | 0, _ => []
  | _ + 1, [] => []
  | fuel + 1, x :: xs => (x :: xs).take n :: chunksOfAux n fuel ((x :: xs).drop n)

/-- Model of Rust `slice::chunks(n)` for `n > 0`: consecutive slices of length
at most `n`, in order. -/
def chunksOf (n : Nat) (l : List α) : List (List α) := chunksOfAux n l.length l

/-- Stable insertion of `x` before the first element whose key is not below
`key x`.  Together with `sortKey` this models Rust's stable
`Vec::sort_by(|a, b| key(a).cmp(&key(b)))`: the output of any stable sort by a
total key order is unique, so insertion sort is a faithful model. -/
def insertKey [LinearOrder β] (key : α → β) (x : α) : List α → List α
  | [] => [x]
  | y :: ys => if key x ≤ key y then x :: y :: ys else y :: insertKey key x ys

/-- Stable sort by key; model of `Vec::sort_by` with a key comparison. -/
def sortKey [LinearOrder β] (key : α → β) : List α → List α
  | [] => []
  | x :: xs => insertKey key x (sortKey key xs)

/-- Helper for `dedupKey`: drop elements whose key equals the key of the last
retained element `prev`; on a key change the new element is retained and
becomes the comparison point. -/
def dedupKeyAux [DecidableEq β] (key : α → β) (prev : α) : List α → List α
  | [] => []
  | y :: ys => if key prev = key y then dedupKeyAux key prev ys else y :: dedupKeyAux key y ys

/-- Model of Rust `Vec::dedup_by(|a, b| key(a) == key(b))`: collapse runs of
adjacent elements with equal keys, keeping the first element of each run. -/
def dedupKey [DecidableEq β] (key : α → β) : List α → List α
  | [] => []
  | x :: xs => x :: dedupKeyAux key x xs

/-- Helper for `containsSubstr`: does `needle` occur as a contiguous
subsequence of the second argument? -/
def containsSubstrAux (needle : List Char) : List Char → Bool
  | [] => needle.isEmpty
  | c :: rest => needle.isPrefixOf (c :: rest) || containsSubstrAux needle rest

/-- Model of Rust `str::contains(needle)`. -/
def containsSubstr (hay needle : String) : Bool := containsSubstrAux needle.data hay.data

/-- Model of Rust `str::to_lowercase()` (the identifiers and names the code
feeds it are ASCII, where `Char.toLower` agrees with Unicode lowercasing). -/
def lowerStr (s : String) : String := ⟨s.data.map Char.toLower⟩

/-! ### Data model -/

/-- Parsed property-list value (`plist::Value`), restricted to the shapes the
code inspects: strings (`as_string`), arrays (`as_array`) and dictionaries
(`as_dictionary`); every other variant behaves like `other`. -/
inductive PValue where
  | str (s : String)
  | arr (elems : List PValue)
  | dict (entries : List (String × PValue))
  | other

/-- Model of `plist::Value::as_string`. -/
def asString : PValue → Option String
  | .str s => some s
  | _ => none

/-- Model of `plist::Value::as_dictionary` (a dictionary as an association
list with distinct keys). -/
def asDict : PValue → Option (List (String × PValue))
  | .dict d => some d
  | _ => none

/-- Model of `plist::Value::as_array`. -/
def asArray : PValue → Option (List PValue)
  | .arr l => some l
  | _ => none

/-- Model of `plist::Dictionary::get`. -/
def pGet (entries : List (String × PValue)) (k : String) : Option PValue :=
  (entries.find? (fun e => e.1 == k)).map (fun e => e.2)

/-- The `App` struct of the source (icon is a base64 data URI when present). -/
structure App where
  name : String
  bundle_id : String
  path : String
  icon : Option String
  source_folder : Option String
  tags : List String

/-- The `AppMetadata` struct of the source: app metadata without icon, used
during fast loading. -/
structure AppMetadata where
  name : String
  bundle_id : String
  path : String
  actual_app_path : String
  source_folder : Option String
  tags : List String

/-- The `IconUpdate` event payload of the source. -/
structure IconUpdate where
  bundle_id : String
  icon : String

/-- Observable pushes of the progressive delivery protocol: `emit("icons-loaded", updates)`
batches and the final `emit("icons-complete", ())` signal. -/
inductive Event where
  | batch (updates : List IconUpdate)
  | complete

/-- Filesystem state as seen through the `std::fs` calls the code makes.
`ex` is `Path::exists` (follows symlinks), `isSymlink` is `Path::is_symlink`,
`readLink` is `fs::read_link` (succeeds exactly on symlinks), `readDir` lists
child entry names in iteration order (errors collapse to `none`; per-entry
errors are skipped by `entries.flatten()` in the source and are simply absent
here), `readFile` is `fs::read`, `plist` is `plist::Value::from_file` and
`mtime` is `metadata().modified()` in whole seconds since the epoch (the
source reads it through `Duration::as_secs`, a `u64`, so the values supplied
here lie below `2 ^ 64`). -/
structure FS where
  ex : String → Bool
  isSymlink : String → Bool
  isDir : String → Bool
  readLink : String → Option String
  readDir : String → Option (List String)
  readFile : String → Option (List Nat)
  plist : String → Option PValue
  mtime : String → Option Nat

/-- State of the icon cache directory.  `avail = false` models
`get_icon_cache_dir()` returning `None` (directory not creatable), which
degrades every read to a miss and every write to a no-op.  `files` maps file
names inside the cache directory to their byte contents. -/
structure CacheFS where
  avail : Bool
  files : String → Option (List Nat)

/-! ### Base64 (the `base64` crate's STANDARD engine, modelled from its
documented alphabet and padding rules) -/

/-- The standard base64 alphabet. -/
def b64Table : List Char :=
  "ABCDEFGHIJKLMNOPQRSTUVWXYZabcdefghijklmnopqrstuvwxyz0123456789+/".data

/-- Character for a six-bit group. -/
def b64Char (i : Nat) : Char := b64Table.getD i '?'

/-- Encode one chunk of at most three bytes into four characters, padding
with `=`. -/
def base64Chunk : List Nat → List Char
  | [a] => [b64Char (a / 4), b64Char (a % 4 * 16), '=', '=']
  | [a, b] => [b64Char (a / 4), b64Char (a % 4 * 16 + b / 16), b64Char (b % 16 * 4), '=']
  | [a, b, c] =>
    [b64Char (a / 4), b64Char (a % 4 * 16 + b / 16), b64Char (b % 16 * 4 + c / 64),
      b64Char (c % 64)]
  | _ => []

/-- Model of `base64::engine::general_purpose::STANDARD.encode`. -/
def base64Encode (bytes : List Nat) : String :=
  ((chunksOf 3 bytes).map base64Chunk).flatten.asString

/-- The data-URI wrapping the code applies to every icon payload. -/
def dataUriOfPng (png : List Nat) : String :=
  "data:image/png;base64," ++ base64Encode png

/-! ### SHA-256 (the `sha2` crate; modelled from FIPS 180-4, operating on byte
lists with `Nat` words reduced mod `2 ^ 32`) -/

/-- Word modulus `2 ^ 32`. -/
def M32 : Nat := 4294967296

/-- Rotate a 32-bit word right by `s`. -/
def rotr (s x : Nat) : Nat := (x / 2 ^ s + x % 2 ^ s * 2 ^ (32 - s)) % M32

/-- Logical right shift. -/
def shr (s x : Nat) : Nat := x / 2 ^ s

/-- Bitwise complement on 32-bit words. -/
def w32not (x : Nat) : Nat := Nat.xor x (M32 - 1)

/-- SHA-256 big sigma 0. -/
def bigS0 (x : Nat) : Nat := Nat.xor (Nat.xor (rotr 2 x) (rotr 13 x)) (rotr 22 x)

/-- SHA-256 big sigma 1. -/
def bigS1 (x : Nat) : Nat := Nat.xor (Nat.xor (rotr 6 x) (rotr 11 x)) (rotr 25 x)

/-- SHA-256 small sigma 0. -/
def smallS0 (x : Nat) : Nat := Nat.xor (Nat.xor (rotr 7 x) (rotr 18 x)) (shr 3 x)

/-- SHA-256 small sigma 1. -/
def smallS1 (x : Nat) : Nat := Nat.xor (Nat.xor (rotr 17 x) (rotr 19 x)) (shr 10 x)

/-- SHA-256 choice function. -/
def chW (x y z : Nat) : Nat := Nat.xor (Nat.land x y) (Nat.land (w32not x) z)

/-- SHA-256 majority function. -/
def majW (x y z : Nat) : Nat := Nat.xor (Nat.xor (Nat.land x y) (Nat.land x z)) (Nat.land y z)

/-- SHA-256 round constants (the fractional cube-root words of FIPS 180-4,
written in decimal). -/
def shaK : List Nat :=
  [1116352408, 1899447441, 3049323471, 3921009573, 961987163, 1508970993, 2453635748,
    2870763221, 3624381080, 310598401, 607225278, 1426881987, 1925078388, 2162078206,
    2614888103, 3248222580, 3835390401, 4022224774, 264347078, 604807628, 770255983,
    1249150122, 1555081692, 1996064986, 2554220882, 2821834349, 2952996808, 3210313671,
    3336571891, 3584528711, 113926993, 338241895, 666307205, 773529912, 1294757372,
    1396182291, 1695183700, 1986661051, 2177026350, 2456956037, 2730485921, 2820302411,
    3259730800, 3345764771, 3516065817, 3600352804, 4094571909, 275423344, 430227734,
    506948616, 659060556, 883997877, 958139571, 1322822218, 1537002063, 1747873779,
    1955562222, 2024104815, 2227730452, 2361852424, 2428436474, 2756734187, 3204031479,
    3329325298]

/-- SHA-256 working state: eight 32-bit words. -/
structure Hash8 where
  w0 : Nat
  w1 : Nat
  w2 : Nat
  w3 : Nat
  w4 : Nat
  w5 : Nat
  w6 : Nat
  w7 : Nat

/-- SHA-256 initial hash value (fractional square-root words, in decimal). -/
def initH : Hash8 :=
  ⟨1779033703, 3144134277, 1013904242, 2773480762, 1359893119, 2600822924, 528734635,
    1541459225⟩

/-- Big-endian 8-byte encoding of a 64-bit length. -/
def be64 (n : Nat) : List Nat :=
  [n / 2 ^ 56 % 256, n / 2 ^ 48 % 256, n / 2 ^ 40 % 256, n / 2 ^ 32 % 256, n / 2 ^ 24 % 256,
    n / 2 ^ 16 % 256, n / 2 ^ 8 % 256, n % 256]

/-- SHA-256 message padding: append `0x80`, zero bytes up to 56 mod 64, then
the bit length big-endian. -/
def sha256Pad (msg : List Nat) : List Nat :=
  msg ++ [128] ++ List.replicate ((64 - (msg.length + 9) % 64) % 64) 0 ++ be64 (msg.length * 8)

/-- Big-endian word from a list of bytes. -/
def wordOfBytesBE (c : List Nat) : Nat := c.foldl (fun a b => a * 256 + b) 0

/-- Extend sixteen message words to the 64-entry message schedule. -/
def schedule (w16 : List Nat) : List Nat :=
  (List.range 48).foldl
    (fun ws _ =>
      ws ++ [(smallS1 (ws.getD (ws.length - 2) 0) + ws.getD (ws.length - 7) 0 +
          smallS0 (ws.getD (ws.length - 15) 0) + ws.getD (ws.length - 16) 0) % M32])
    w16

/-- One SHA-256 compression round; the pair carries `(W t, K t)`. -/
def roundStep (st : Hash8) (wk : Nat × Nat) : Hash8 :=
  let t1 := (st.w7 + bigS1 st.w4 + chW st.w4 st.w5 st.w6 + wk.2 + wk.1) % M32
  let t2 := (bigS0 st.w0 + majW st.w0 st.w1 st.w2) % M32
  ⟨(t1 + t2) % M32, st.w0, st.w1, st.w2, (st.w3 + t1) % M32, st.w4, st.w5, st.w6⟩

/-- Compress one 64-byte chunk into the running hash. -/
def compressChunk (H : Hash8) (chunk : List Nat) : Hash8 :=
  let ws := schedule ((chunksOf 4 chunk).map wordOfBytesBE)
  let f := (ws.zip shaK).foldl roundStep H
  ⟨(H.w0 + f.w0) % M32, (H.w1 + f.w1) % M32, (H.w2 + f.w2) % M32, (H.w3 + f.w3) % M32,
    (H.w4 + f.w4) % M32, (H.w5 + f.w5) % M32, (H.w6 + f.w6) % M32, (H.w7 + f.w7) % M32⟩

/-- Big-endian bytes of one 32-bit word. -/
def wordBytesBE (w : Nat) : List Nat :=
  [w / 2 ^ 24 % 256, w / 2 ^ 16 % 256, w / 2 ^ 8 % 256, w % 256]

/-- Digest bytes: the eight state words, big-endian. -/
def digestBytes (H : Hash8) : List Nat :=
  [H.w0, H.w1, H.w2, H.w3, H.w4, H.w5, H.w6, H.w7].flatMap wordBytesBE

/-- SHA-256 of a byte list. -/
def sha256 (msg : List Nat) : List Nat :=
  digestBytes ((chunksOf 64 (sha256Pad msg)).foldl compressChunk initH)

/-! ### Cache key (`get_icon_cache_key`, lines 27-40) -/

/-- UTF-8 bytes of a string, as `Nat`s; models `str::as_bytes` on the
`to_string_lossy` form of a path. -/
def strBytes (s : String) : List Nat :=
  (s.data.flatMap String.utf8EncodeChar).map UInt8.toNat

/-- Decimal digits of `n`, least significant first, by repeated division;
the fuel argument (`n` itself suffices) keeps the recursion structural. -/
def decAux : Nat → Nat → List Nat
  | 0, _ => []
  | fuel + 1, n => if n = 0 then [] else n % 10 :: decAux fuel (n / 10)

/-- Decimal digits of `n`, most significant first, as printed by `u64::to_string`. -/
def decimalDigits (n : Nat) : List Nat :=
  if n = 0 then [0] else (decAux n n).reverse

/-- ASCII bytes of the decimal representation of `n`. -/
def decimalBytes (n : Nat) : List Nat := (decimalDigits n).map (fun d => 48 + d)

/-- The exact byte sequence hashed by `get_icon_cache_key`: the two
`hasher.update` calls concatenate the path bytes and the decimal modification
time.  The modification time is the `u64` produced by `as_secs()`, so callers
supply values below `2 ^ 64`. -/
def sha_input (app_path : String) (mtime : Nat) : List Nat :=
  strBytes app_path ++ decimalBytes mtime

/-- Two hex characters for one byte; `format("{:x}")` on a digest prints each
byte as two lowercase hex digits. -/
def hexByte (b : Nat) : List Char := [Nat.digitChar (b / 16), Nat.digitChar (b % 16)]


/-- Model of `get_icon_cache_key` (after the `fs::metadata` / `modified()`
option layers, which the caller supplies as `mtime`, a `u64` value below
`2 ^ 64`): sha256 over path bytes followed by the decimal modification time,
hex-formatted, truncated to the first 16 characters. -/
def get_icon_cache_key (app_path : String) (mtime : Nat) : String :=
  (((sha256 (sha_input app_path mtime)).flatMap hexByte).take 16).asString

/-! ### Icon cache operations (`load_cached_icon` lines 43-54,
`save_icon_to_cache` lines 57-61) -/

/-- Model of `load_cached_icon`: read `<key>.png` from the cache directory
and return it as a base64 data URI. -/
def load_cached_icon (σ : CacheFS) (cache_key : String) : Option String :=
  if σ.avail then
    match σ.files (cache_key ++ ".png") with
    | some png => some (dataUriOfPng png)
    | none => none
  else none

/-- Model of `save_icon_to_cache`: write the raw PNG bytes to `<key>.png`;
an unavailable cache directory makes the write a silent no-op. -/
def save_icon_to_cache (σ : CacheFS) (cache_key : String) (png : List Nat) : CacheFS :=
  if σ.avail then
    { avail := true,
      files := fun p => if p == cache_key ++ ".png" then some png else σ.files p }
  else σ

/-! ### Tag detection (`detect_app_tags` lines 513-546 and its helpers) -/

/-- The `OFFICE` bundle-id substring table (lines 639-645). -/
def officeIds : List String :=
  ["google.docs", "google.sheets", "google.slides", "google.gmail", "microsoft.word",
    "microsoft.excel", "microsoft.powerpoint", "microsoft.outlook", "libreoffice",
    "openoffice", "pages", "numbers", "keynote", "notion", "obsidian", "evernote", "onenote",
    "bear", "ulysses", "writer", "calc", "impress", "airtable", "coda"]

/-- The `UTILITIES` bundle-id substring table (lines 651-658); the leading
space in `" 1password"` is in the source. -/
def utilitiesIds : List String :=
  ["colorsync", "colormeter", "rectangle", "magnet", "bettertouchtool", "alfred", "raycast",
    "spotlight", "cleanmymac", "appcleaner", "utm", "virtualbox", "parallels", "diskspeed",
    "diskutility", " 1password", "bitwarden", "lastpass", "keepass", "dashlane", "bartender",
    "hazel", "keyboard maestro", "textexpander", "paste", "dropzone", "popclip", "clipy",
    "maccy", "flux", "nightshift"]

/-- The `SOCIAL` bundle-id substring table (lines 664-670). -/
def socialIds : List String :=
  ["slack", "discord", "telegram", "whatsapp", "messenger", "signal", "zoom", "teams",
    "skype", "facetime", "meet", "webex", "twitter", "tweetbot", "mastodon", "bluesky",
    "threads", "instagram", "facebook", "linkedin", "tiktok", "snapchat", "element",
    "matrix", "irc", "gitter", "rocketchat"]

/-- The `DEV_TOOLS` bundle-id substring table (lines 676-684). -/
def devToolsIds : List String :=
  ["xcode", "vscode", "code", "jetbrains", "intellij", "pycharm", "webstorm", "github",
    "terminal", "iterm", "warp", "alacritty", "kitty", "docker", "postman", "insomnia",
    "paw", "rapidapi", "vim", "neovim", "macvim", "emacs", "sublime", "atom", "sourcetree",
    "tower", "gitkraken", "fork", "gitup", "dash", "devdocs", "sequel", "tableplus",
    "postico", "dbeaver", "simulator", "charles", "proxyman", "wireshark"]

/-- The `CREATIVITY` bundle-id substring table (lines 690-698). -/
def creativityIds : List String :=
  ["photoshop", "illustrator", "indesign", "aftereffects", "premiere", "lightroom", "bridge",
    "xd", "dimension", "fresco", "adobe", "sketch", "figma", "affinity", "pixelmator",
    "acorn", "inkscape", "gimp", "krita", "blender", "cinema4d", "final cut", "davinci",
    "lumafusion", "compressor", "motion", "logic", "garageband", "ableton", "fl studio",
    "audacity", "procreate", "clip studio", "rebelle", "corel", "canva"]

/-- The `ENTERTAINMENT` bundle-id substring table (lines 704-711). -/
def entertainmentIds : List String :=
  ["spotify", "music", "itunes", "tidal", "deezer", "soundcloud", "vlc", "iina", "quicktime",
    "plex", "kodi", "infuse", "netflix", "youtube", "prime video", "disney", "hulu", "hbo",
    "steam", "epic", "gog", "origin", "uplay", "battlenet", "game", "minecraft",
    "league of legends", "fortnite", "valorant", "twitch", "obs", "streamlabs", "discord",
    "parsec"]

/-- The `PLANNING` bundle-id substring table (lines 717-723). -/
def planningIds : List String :=
  ["calendar", "fantastical", "busycal", "cron", "morgen", "reminders", "todoist", "things",
    "omnifocus", "taskpaper", "notes", "agenda", "craft", "roam", "logseq", "trello",
    "asana", "monday", "clickup", "linear", "timery", "toggl", "rescuetime", "timeular",
    "clockify"]

/-- Model of `detect_tag_from_bundle_id` (lines 582-729): lowercase the
identifier, abstain on Chrome/Edge PWA markers, then run the browser pattern
chain followed by the category substring tables. -/
def detect_tag_from_bundle_id (bundle_id : String) : Option String :=
  let bl := lowerStr bundle_id
  if containsSubstr bl ".chrome.app." || containsSubstr bl ".edge.app." then none
  else if containsSubstr bl ".safari" || containsSubstr bl "safari." then some "browsers"
  else if containsSubstr bl ".chrome" || containsSubstr bl "chrome." ||
      bl == "com.google.chrome" then some "browsers"
  else if containsSubstr bl ".firefox" || containsSubstr bl "mozilla." then some "browsers"
  else if containsSubstr bl "torbrowser" || containsSubstr bl "torproject" then some "browsers"
  else if containsSubstr bl ".brave" || containsSubstr bl "brave." then some "browsers"
  else if containsSubstr bl ".opera" || containsSubstr bl "opera." then some "browsers"
  else if containsSubstr bl ".vivaldi" then some "browsers"
  else if containsSubstr bl ".edge" || containsSubstr bl "microsoftedge" then some "browsers"
  else if containsSubstr bl "dolphin.anty" || containsSubstr bl "dolphinanty" then
    some "browsers"
  else if containsSubstr bl ".arc" || bl == "company.thebrowser.browser" then some "browsers"
  else if containsSubstr bl "waterfox" || containsSubstr bl "palemoon" ||
      containsSubstr bl "floorp" || containsSubstr bl "librewolf" then some "browsers"
  else if officeIds.any (fun a => containsSubstr bl a) then some "office"
  else if utilitiesIds.any (fun a => containsSubstr bl a) then some "utilities"
  else if socialIds.any (fun a => containsSubstr bl a) then some "social"
  else if devToolsIds.any (fun a => containsSubstr bl a) then some "dev-tools"
  else if creativityIds.any (fun a => containsSubstr bl a) then some "creativity"
  else if entertainmentIds.any (fun a => containsSubstr bl a) then some "entertainment"
  else if planningIds.any (fun a => containsSubstr bl a) then some "planning"
  else none

/-- The `BROWSER_NAMES` table (lines 735-738). -/
def browserNames : List String :=
  ["safari", "chrome", "firefox", "edge", "brave", "tor browser", "opera", "arc", "orion",
    "vivaldi"]

/-- The `OFFICE_NAMES` table (lines 744-748). -/
def officeNames : List String :=
  ["google docs", "google sheets", "google slides", "gmail", "google drive",
    "microsoft word", "microsoft excel", "microsoft powerpoint", "outlook", "pages",
    "numbers", "keynote", "libreoffice", "notion"]

/-- The `UTILITY_NAMES` table (lines 754-757). -/
def utilityNames : List String :=
  ["utility", "activity monitor", "console", "disk utility", "finder",
    "system preferences", "system settings", "terminal", "calculator"]

/-- The `SOCIAL_NAMES` table (lines 763-765). -/
def socialNames : List String :=
  ["mail", "facetime", "messages", "slack", "discord", "zoom"]

/-- The `PLANNING_NAMES` table (lines 771-773). -/
def planningNames : List String :=
  ["calendar", "reminders", "notes", "todoist", "things"]

/-- The `CREATIVITY_NAMES` table (lines 779-782). -/
def creativityNames : List String :=
  ["photos", "photoshop", "illustrator", "sketch", "figma", "final cut", "logic pro"]

/-- Model of `detect_tag_from_app_name` (lines 731-788); the bundle id
argument is unused in the source as well. -/
def detect_tag_from_app_name (name : String) (_bundle_id : String) : Option String :=
  let nl := lowerStr name
  if browserNames.any (fun n => containsSubstr nl n) then some "browsers"
  else if officeNames.any (fun n => containsSubstr nl n) then some "office"
  else if utilityNames.any (fun n => containsSubstr nl n) then some "utilities"
  else if socialNames.any (fun n => containsSubstr nl n) then some "social"
  else if planningNames.any (fun n => containsSubstr nl n) then some "planning"
  else if creativityNames.any (fun n => containsSubstr nl n) then some "creativity"
  else none

/-- Model of `map_macos_category_to_tag` (lines 548-580). -/
def map_macos_category_to_tag (category : String) : Option String :=
  if category == "public.app-category.developer-tools" then some "dev-tools"
  else if category == "public.app-category.social-networking" then some "social"
  else if category == "public.app-category.utilities" then some "utilities"
  else if category == "public.app-category.entertainment" then some "entertainment"
  else if category == "public.app-category.games" then some "entertainment"
  else if category == "public.app-category.music" then some "entertainment"
  else if category == "public.app-category.video" then some "entertainment"
  else if category == "public.app-category.graphics-design" then some "creativity"
  else if category == "public.app-category.photography" then some "creativity"
  else if category == "public.app-category.productivity" then some "planning"
  else if category == "public.app-category.business" then some "planning"
  else if category == "public.app-category.finance" then some "planning"
  else if category == "public.app-category.education" then some "office"
  else if category == "public.app-category.reference" then some "office"
  else none

/-- Model of `detect_app_tags` (lines 513-546): fixed-priority chain, first
match wins, at most one tag. -/
def detect_app_tags (d : List (String × PValue)) (bundle_id name : String) : List String :=
  match detect_tag_from_bundle_id bundle_id with
  | some tag => [tag]
  | none =>
    match detect_tag_from_app_name name bundle_id with
    | some tag => [tag]
    | none =>
      match (pGet d "LSApplicationCategoryType").bind asString with
      | some category =>
        match map_macos_category_to_tag category with
        | some tag => [tag]
        | none => []
      | none => []

/-! ### Bundle resolution (`parse_app_bundle_fast` lines 405-494; the plist
location / actual-path logic is shared verbatim with `parse_app_bundle`
lines 301-364) -/

/-- Rust `Path::extension().is_some()` on the final path component: the file
name contains a dot after its first character. -/
def fileNameChars (s : String) : List Char :=
  s.data.foldl (fun acc c => if c == '/' then [] else acc ++ [c]) []

/-- Does the file name of `s` have an extension (so `set_extension` would
replace rather than append)? -/
def hasDotExt (s : String) : Bool := ((fileNameChars s).drop 1).contains '.'

/-- Rust `extension() == Some("app")` on an entry name: ends in `.app` with a
nonempty stem. -/
def hasAppExt (nm : String) : Bool :=
  decide (4 < nm.data.length) && nm.data.drop (nm.data.length - 4) == ".app".data

/-- The `Wrapper` directory scan (lines 431-454): first child entry with the
`.app` extension whose `Contents/Info.plist` or root `Info.plist` exists wins. -/
def wrapper_scan (fs : FS) (wrapper_dir : String) : List String → Option (String × String)
  | [] => none
  | nm :: rest =>
    let entry_path := wrapper_dir ++ "/" ++ nm
    if hasAppExt nm then
      if fs.ex (entry_path ++ "/Contents/Info.plist") then
        some (entry_path ++ "/Contents/Info.plist", entry_path)
      else if fs.ex (entry_path ++ "/Info.plist") then
        some (entry_path ++ "/Info.plist", entry_path)
      else wrapper_scan fs wrapper_dir rest
    else wrapper_scan fs wrapper_dir rest

/-- The descriptor-location logic of `parse_app_bundle_fast` (lines 406-459):
returns the `Info.plist` path and the actual bundle root used for icon lookup,
or `none` when the final `info_plist_path.exists()` check fails. -/
def resolve_bundle (fs : FS) (app_path : String) : Option (String × String) :=
  if fs.ex (app_path ++ "/Contents/Info.plist") then
    some (app_path ++ "/Contents/Info.plist", app_path)
  else
    let wb := app_path ++ "/WrappedBundle"
    let viaLink : Option (String × String) :=
      if fs.isSymlink wb || fs.ex wb then
        match fs.readLink wb with
        | some resolved =>
          let inner := app_path ++ "/" ++ resolved
          if fs.ex (inner ++ "/Contents/Info.plist") then
            some (inner ++ "/Contents/Info.plist", inner)
          else if fs.ex (inner ++ "/Info.plist") then
            some (inner ++ "/Info.plist", inner)
          else none
        | none => none
      else none
    match viaLink with
    | some r => some r
    | none =>
      let wrapper_dir := app_path ++ "/Wrapper"
      if fs.isDir wrapper_dir then
        match fs.readDir wrapper_dir with
        | some entries => wrapper_scan fs wrapper_dir entries
        | none => none
      else none

/-- Model of `parse_app_bundle_fast` (lines 405-494): locate the descriptor,
parse it, extract name (display name falling back to short name), bundle id
(falling back to `"unknown"`), filter the tool's own id, detect tags.  The
record's `path` is the outer candidate path; `actual_app_path` is the resolved
bundle root. -/
def parse_app_bundle_fast (fs : FS) (app_path : String) (source_folder : Option String) :
    Option AppMetadata :=
  match resolve_bundle fs app_path with
  | none => none
  | some (info_plist_path, actual_app_path) =>
    match (fs.plist info_plist_path).bind asDict with
    | none => none
    | some d =>
      match ((pGet d "CFBundleDisplayName").orElse (fun _ => pGet d "CFBundleName")).bind
          asString with
      | none => none
      | some name =>
        let bundle_id := ((pGet d "CFBundleIdentifier").bind asString).getD "unknown"
        if bundle_id == "red.launchpad" then none
        else
          some
            { name := name, bundle_id := bundle_id, path := app_path,
              actual_app_path := actual_app_path, source_folder := source_folder,
              tags := detect_app_tags d bundle_id name }

/-! ### Icon extraction (`extract_app_icon` lines 790-898 and helpers) -/

/-- Model of `extract_png_as_base64` (lines 900-910): read the PNG, write it
through the cache when a key is available, return the data URI. -/
def extract_png_as_base64 (fs : FS) (σ : CacheFS) (png_path : String)
    (cache_key : Option String) : Option String × CacheFS :=
  match fs.readFile png_path with
  | none => (none, σ)
  | some png =>
    let σ' := match cache_key with
      | some k => save_icon_to_cache σ k png
      | none => σ
    (some (dataUriOfPng png), σ')

/-- Model of `extract_icns_as_base64` (lines 912-955): hand the `.icns` file
to the external `sips` rasterizer (modelled as a function from the source path
to the produced PNG bytes, `none` on non-zero exit or unreadable output),
cache and data-URI-encode the result. -/
def extract_icns_as_base64 (rasterize : String → Option (List Nat)) (σ : CacheFS)
    (icon_path : String) (cache_key : Option String) : Option String × CacheFS :=
  match rasterize icon_path with
  | none => (none, σ)
  | some png =>
    let σ' := match cache_key with
      | some k => save_icon_to_cache σ k png
      | none => σ
    (some (dataUriOfPng png), σ')

/-- The desktop-style icon lookup of `extract_app_icon` (lines 803-824):
join the icon file name under `Contents/Resources`; if the name has no
extension, `set_extension("icns")` appends `.icns` and that path is tested
first; the literal joined path is tested second.  Returns the path handed to
`extract_icns_as_base64`, or `none` when neither candidate exists. -/
def desktop_icon_lookup (fs : FS) (app_path icon_file : String) : Option String :=
  let p0 := app_path ++ "/Contents/Resources/" ++ icon_file
  let p1 := if hasDotExt icon_file then p0 else p0 ++ ".icns"
  if fs.ex p1 then some p1
  else if fs.ex p0 then some p0
  else none

/-- The `CFBundleIconFiles` loop (lines 840-856): for each string entry, try
the `@3x.png`, `@2x.png`, `.png` suffix variants at the bundle root; the first
existing file is returned (and handed to `extract_png_as_base64` regardless of
whether the read then succeeds). -/
def firstExistingPattern (fs : FS) (app_path : String) : List PValue → Option String
  | [] => none
  | v :: rest =>
    match asString v with
    | none => firstExistingPattern fs app_path rest
    | some icon_base =>
      match ([icon_base ++ "@3x.png", icon_base ++ "@2x.png", icon_base ++ ".png"].find?
          (fun pat => fs.ex (app_path ++ "/" ++ pat))) with
      | some pat => some (app_path ++ "/" ++ pat)
      | none => firstExistingPattern fs app_path rest

/-- Quality rank of an icon file name (lines 874-880). -/
def iconSizeRank (filename : String) : Nat :=
  if containsSubstr filename "@3x" then 3 else if containsSubstr filename "@2x" then 2 else 1

/-- The `CFBundleIconName` directory scan (lines 864-892): among entries whose
name starts with the icon name and ends in `.png`, keep the first entry of the
strictly highest rank. -/
def pickBestIcon (entries : List String) (icon_name : String) : Option String :=
  (entries.foldl
    (fun best nm =>
      if icon_name.data.isPrefixOf nm.data &&
          nm.data.drop (nm.data.length - 4) == ".png".data then
        if iconSizeRank nm > best.2 then (some nm, iconSizeRank nm) else best
      else best)
    ((none : Option String), 0)).1

/-- The iOS-style portion of `extract_app_icon` (lines 828-895):
`CFBundleIcons → CFBundlePrimaryIcon → CFBundleIconFiles` suffix probing, then
the `CFBundleIconName` directory scan. -/
def extract_app_icon_mobile (fs : FS) (σ : CacheFS) (app_path : String)
    (d : List (String × PValue)) (cache_key : Option String) : Option String × CacheFS :=
  match (pGet d "CFBundleIcons").bind asDict with
  | none => (none, σ)
  | some icons_dict =>
    match (pGet icons_dict "CFBundlePrimaryIcon").bind asDict with
    | none => (none, σ)
    | some primary_icon =>
      let viaFiles : Option String :=
        match (pGet primary_icon "CFBundleIconFiles").bind asArray with
        | some icon_files => firstExistingPattern fs app_path icon_files
        | none => none
      match viaFiles with
      | some icon_path => extract_png_as_base64 fs σ icon_path cache_key
      | none =>
        match (pGet primary_icon "CFBundleIconName").bind asString with
        | none => (none, σ)
        | some icon_name =>
          match fs.readDir app_path with
          | none => (none, σ)
          | some entries =>
            match pickBestIcon entries icon_name with
            | some nm => extract_png_as_base64 fs σ (app_path ++ "/" ++ nm) cache_key
            | none => (none, σ)

/-- Model of `extract_app_icon` (lines 790-898): derive the cache key, return
a cache hit immediately, otherwise run the desktop-style lookup (whose result
is returned even when rasterization fails, matching the early `return`),
falling back to the iOS-style tiers. -/
def extract_app_icon (fs : FS) (σ : CacheFS) (rasterize : String → Option (List Nat))
    (app_path : String) (d : List (String × PValue)) : Option String × CacheFS :=
  let cache_key := (fs.mtime app_path).map (get_icon_cache_key app_path)
  match cache_key.bind (fun k => load_cached_icon σ k) with
  | some cached => (some cached, σ)
  | none =>
    match (pGet d "CFBundleIconFile").bind asString with
    | some icon_file =>
      match desktop_icon_lookup fs app_path icon_file with
      | some icon_path => extract_icns_as_base64 rasterize σ icon_path cache_key
      | none => extract_app_icon_mobile fs σ app_path d cache_key
    | none => extract_app_icon_mobile fs σ app_path d cache_key

/-- Model of `extract_app_icon_for_path` (lines 497-511). -/
def extract_app_icon_for_path (fs : FS) (σ : CacheFS)
    (rasterize : String → Option (List Nat)) (app_path : String) : Option String × CacheFS :=
  let plistPath : Option String :=
    if fs.ex (app_path ++ "/Contents/Info.plist") then some (app_path ++ "/Contents/Info.plist")
    else if fs.ex (app_path ++ "/Info.plist") then some (app_path ++ "/Info.plist")
    else none
  match plistPath with
  | none => (none, σ)
  | some pp =>
    match (fs.plist pp).bind asDict with
    | none => (none, σ)
    | some d => extract_app_icon fs σ rasterize app_path d

/-! ### Discovery pipeline (`get_installed_apps_fast` lines 93-146,
`load_app_icons` lines 150-217) -/

/-- The deduplication step shared by `get_installed_apps_fast` (lines 125-127)
and `load_app_icons` (lines 182-184): stable sort by bundle id, then collapse
adjacent equal ids keeping the first. -/
def dedup_apps (metas : List AppMetadata) : List AppMetadata :=
  dedupKey (fun m => m.bundle_id) (sortKey (fun m => m.bundle_id) metas)

/-- Run `parse_app_bundle_fast` over the candidate directories (with their
source-folder labels) in the fixed root-scan order; failed candidates are
skipped, modelling the `if let Some(app) = parse_app_bundle_fast(..)` pushes
of `scan_applications_directory_fast`. -/
def scan_candidates (fs : FS) (candidates : List (String × Option String)) :
    List AppMetadata :=
  candidates.filterMap (fun c => parse_app_bundle_fast fs c.1 c.2)

/-- The `AppMetadata → App` conversion of lines 133-143: no icon populated. -/
def metaToApp (m : AppMetadata) : App :=
  { name := m.name, bundle_id := m.bundle_id, path := m.path, icon := none,
    source_folder := m.source_folder, tags := m.tags }

/-- Lines 125-145 of `get_installed_apps_fast`: dedup by bundle id, sort by
lowercase name, convert without icons. -/
def get_installed_apps_fast_core (metas : List AppMetadata) : List App :=
  (sortKey (fun m => lowerStr m.name) (dedup_apps metas)).map metaToApp

/-- Model of the `get_installed_apps_fast` command (lines 93-146); the body
ends in `Ok(apps)` unconditionally. -/
def get_installed_apps_fast (fs : FS) (candidates : List (String × Option String)) :
    Except String (List App) :=
  Except.ok (get_installed_apps_fast_core (scan_candidates fs candidates))

/-- Lines 186-216 of `load_app_icons`, applied to the deduplicated metadata
list: extract icons in input order (rayon's indexed `par_iter().map().collect()`
preserves order), chunk into batches of 10, emit each batch that contains at
least one successfully extracted icon, then emit the completion signal. -/
def load_app_icons_events (deduped : List AppMetadata) (extract : String → Option String) :
    List Event :=
  let icons := deduped.map (fun meta => (meta.bundle_id, extract meta.actual_app_path))
  let batches := (chunksOf 10 icons).map
    (fun chunk => chunk.filterMap (fun bi => bi.2.map (fun i => IconUpdate.mk bi.1 i)))
  (batches.filterMap fun updates =>
    if updates.isEmpty then none else some (Event.batch updates)) ++ [Event.complete]

/-- Model of the `load_app_icons` command (lines 150-217): the emitted event
sequence together with the command's return value, which is `Ok(())`
unconditionally.  The cache writes of the parallel workers are benign
duplicates (identical bytes per key), so the extraction value is taken per
worker from the shared initial cache state. -/
def load_app_icons (fs : FS) (σ : CacheFS) (rasterize : String → Option (List Nat))
    (candidates : List (String × Option String)) : List Event × Except String Unit :=
  (load_app_icons_events (dedup_apps (scan_candidates fs candidates))
      (fun p => (extract_app_icon_for_path fs σ rasterize p).1),
    Except.ok ())

/-! ### Concrete fixtures used by counterexamples and witnesses -/

/-- Empty filesystem. -/
def fsEmpty : FS :=
  { ex := fun _ => false, isSymlink := fun _ => false, isDir := fun _ => false,
    readLink := fun _ => none, readDir := fun _ => none, readFile := fun _ => none,
    plist := fun _ => none, mtime := fun _ => none }

/-- Unavailable icon cache. -/
def cacheOff : CacheFS := { avail := false, files := fun _ => none }

/-- Available, empty icon cache. -/
def cacheOn : CacheFS := { avail := true, files := fun _ => none }

/-- Filesystem for the C1 counterexample: `Bar.app` has no
`Contents/Info.plist`; `Bar.app/WrappedBundle` exists but is a regular
directory (not a symlink) containing a root-level `Info.plist`; there is no
`Wrapper` directory. -/
def fsC1 : FS :=
  { fsEmpty with
    ex := fun p => p == "Bar.app/WrappedBundle" || p == "Bar.app/WrappedBundle/Info.plist" }

/-- Filesystem for the C1 witness, the spec's wrapped-bundle scenario:
`Bar.app/WrappedBundle` is a symlink to `Wrapper/Bar-inner.app`, and the inner
bundle has a root-level `Info.plist` (mobile layout). -/
def fsC1w : FS :=
  { fsEmpty with
    ex := fun p => p == "Bar.app/Wrapper/Bar-inner.app/Info.plist",
    isSymlink := fun p => p == "Bar.app/WrappedBundle",
    readLink := fun p =>
      if p == "Bar.app/WrappedBundle" then some "Wrapper/Bar-inner.app" else none }

/-- Filesystem for the C8 counterexample: both the literal resource file
`Icon` and its `.icns` variant exist. -/
def fsC8 : FS :=
  { fsEmpty with
    ex := fun p =>
      p == "A.app/Contents/Resources/Icon" || p == "A.app/Contents/Resources/Icon.icns" }

/-- Rasterizer for the C8 counterexample: produces distinct PNG bytes for the
literal path and for every other path, so the two candidate lookups are
observably different. -/
def rastC8 : String → Option (List Nat) :=
  fun p => if p == "A.app/Contents/Resources/Icon" then some [1] else some [2]

/-- Descriptor for the C8 counterexample: an icon-file field naming `Icon`. -/
def dC8 : List (String × PValue) := [("CFBundleIconFile", PValue.str "Icon")]

/-- Filesystem for the C5 witness: a standard bundle whose descriptor carries
the tool's own identifier. -/
def dC5 : List (String × PValue) :=
  [("CFBundleDisplayName", PValue.str "LP"), ("CFBundleIdentifier", PValue.str "red.launchpad")]

/-- Filesystem exposing `dC5` at the standard descriptor location. -/
def fsC5 : FS :=
  { fsEmpty with
    ex := fun p => p == "X.app/Contents/Info.plist",
    plist := fun p => if p == "X.app/Contents/Info.plist" then some (PValue.dict dC5) else none }

/-- Descriptor for the C6 witness: only an OS category field. -/
def dC6 : List (String × PValue) :=
  [("LSApplicationCategoryType", PValue.str "public.app-category.social-networking")]

/-- Two scanned candidates sharing a bundle id, for the C2 witness. -/
def mC2a : AppMetadata :=
  { name := "Alpha", bundle_id := "com.x.alpha", path := "/Applications/Alpha.app",
    actual_app_path := "/Applications/Alpha.app", source_folder := none, tags := [] }

/-- Second candidate with the same identifier found later in scan order. -/
def mC2b : AppMetadata :=
  { name := "Alpha copy", bundle_id := "com.x.alpha", path := "/Users/u/Applications/Alpha.app",
    actual_app_path := "/Users/u/Applications/Alpha.app", source_folder := none, tags := [] }

/-! ## Lemmas: stable sort and adjacent dedup -/

theorem mem_insertKey (key : α → String) (x a : α) (l : List α) :
    a ∈ insertKey key x l ↔ a = x ∨ a ∈ l := by
  induction l with
  | nil => simp [insertKey]
  | cons y ys ih =>
    by_cases h : key x ≤ key y
    · simp [insertKey, h, List.mem_cons]
    · simp [insertKey, h, List.mem_cons, ih]
      tauto

theorem pairwise_insertKey (key : α → String) (x : α) (l : List α)
    (h : l.Pairwise (fun a b => key a ≤ key b)) :
    (insertKey key x l).Pairwise (fun a b => key a ≤ key b) := by
  induction l with
  | nil => simp [insertKey]
  | cons y ys ih =>
    rcases List.pairwise_cons.mp h with ⟨hy, hys⟩
    by_cases hxy : key x ≤ key y
    · rw [insertKey, if_pos hxy]
      refine List.pairwise_cons.mpr ⟨?_, h⟩
      intro b hb
      rcases List.mem_cons.mp hb with rfl | hb
      · exact hxy
      · exact le_trans hxy (hy b hb)
    · rw [insertKey, if_neg hxy]
      refine List.pairwise_cons.mpr ⟨?_, ih hys⟩
      intro b hb
      rcases (mem_insertKey key x b ys).mp hb with rfl | hb
      · exact le_of_not_le hxy
      · exact hy b hb

theorem sortKey_pairwise (key : α → String) (l : List α) :
    (sortKey key l).Pairwise (fun a b => key a ≤ key b) := by
  induction l with
  | nil => simp [sortKey]
  | cons x xs ih => exact pairwise_insertKey key x _ ih

theorem filter_insertKey (key : α → String) (k : String) (x : α) (l : List α) :
    (insertKey key x l).filter (fun a => key a == k) =
      if key x = k then x :: l.filter (fun a => key a == k)
      else l.filter (fun a => key a == k) := by
  induction l with
  | nil => by_cases hxk : key x = k <;> simp [insertKey, List.filter_cons, hxk]
  | cons y ys ih =>
    by_cases hxy : key x ≤ key y
    · rw [insertKey, if_pos hxy]
      by_cases hxk : key x = k <;> simp [List.filter_cons, hxk]
    · rw [insertKey, if_neg hxy]
      have hlt : key y < key x := lt_of_not_le hxy
      by_cases hxk : key x = k
      · have hyk : ¬ key y = k := fun h2 => absurd (h2.trans hxk.symm) (ne_of_lt hlt)
        simp [List.filter_cons, hxk, hyk, ih]
      · by_cases hyk : key y = k <;> simp [List.filter_cons, hxk, hyk, ih]

theorem filter_sortKey (key : α → String) (k : String) (l : List α) :
    (sortKey key l).filter (fun a => key a == k) = l.filter (fun a => key a == k) := by
  induction l with
  | nil => rfl
  | cons x xs ih =>
    rw [sortKey, filter_insertKey]
    by_cases hxk : key x = k <;> simp [hxk, List.filter_cons, ih]

theorem mem_dedupKeyAux (key : α → String) (prev a : α) (l : List α) :
    a ∈ dedupKeyAux key prev l → a ∈ l := by
  induction l generalizing prev with
  | nil => simp [dedupKeyAux]
  | cons y ys ih =>
    by_cases h : key prev = key y
    · intro ha
      exact List.mem_cons_of_mem _ (ih prev (by simpa [dedupKeyAux, h] using ha))
    · intro ha
      rcases List.mem_cons.mp (by simpa [dedupKeyAux, h] using ha) with rfl | ha
      · exact List.mem_cons_self _ _
      · exact List.mem_cons_of_mem _ (ih y ha)

theorem filter_dedupKeyAux_eq_nil (key : α → String) (k : String) (prev : α)
    (l : List α) (h : (prev :: l).Pairwise (fun a b => key a ≤ key b)) (hk : key prev = k) :
    (dedupKeyAux key prev l).filter (fun a => key a == k) = [] := by
  induction l generalizing prev with
  | nil => rfl
  | cons y ys ih =>
    rcases List.pairwise_cons.mp h with ⟨hp, hys⟩
    by_cases hpy : key prev = key y
    · rw [dedupKeyAux, if_pos hpy]
      exact ih prev
        (List.pairwise_cons.mpr
          ⟨fun b hb => hp b (List.mem_cons_of_mem _ hb), hys.of_cons⟩) hk
    · rw [dedupKeyAux, if_neg hpy]
      have hyk : key y ≠ k := fun h2 => hpy (hk.trans h2.symm)
      rw [List.filter_cons, if_neg (by simp [hyk])]
      apply List.filter_eq_nil_iff.mpr
      intro b hb
      have hbys := mem_dedupKeyAux key y b ys hb
      have h1 : key y ≤ key b := (List.pairwise_cons.mp hys).1 b hbys
      have h2 : k < key y :=
        lt_of_le_of_ne (hk ▸ hp y (List.mem_cons_self _ _)) (Ne.symm hyk)
      simp [beq_iff_eq]
      exact ne_of_gt (lt_of_lt_of_le h2 h1)

theorem filter_dedupKeyAux_ne (key : α → String) (k : String) (prev : α) (l : List α)
    (h : (prev :: l).Pairwise (fun a b => key a ≤ key b)) (hk : key prev ≠ k) :
    (dedupKeyAux key prev l).filter (fun a => key a == k) =
      (l.filter (fun a => key a == k)).take 1 := by
  induction l generalizing prev with
  | nil => rfl
  | cons y ys ih =>
    rcases List.pairwise_cons.mp h with ⟨hp, hys⟩
    by_cases hpy : key prev = key y
    · rw [dedupKeyAux, if_pos hpy]
      have hyk : key y ≠ k := fun h2 => hk (hpy.trans h2)
      rw [List.filter_cons, if_neg (by simp [hyk])]
      exact ih prev
        (List.pairwise_cons.mpr
          ⟨fun b hb => hp b (List.mem_cons_of_mem _ hb), hys.of_cons⟩) hk
    · rw [dedupKeyAux, if_neg hpy]
      by_cases hyk : key y = k
      · rw [List.filter_cons, if_pos (by simp [hyk]),
          filter_dedupKeyAux_eq_nil key k y ys hys hyk,
          List.filter_cons, if_pos (by simp [hyk])]
        simp
      · rw [List.filter_cons, if_neg (by simp [hyk]),
          List.filter_cons, if_neg (by simp [hyk])]
        exact ih y hys hyk

theorem filter_dedupKey (key : α → String) (k : String) (l : List α)
    (h : l.Pairwise (fun a b => key a ≤ key b)) :
    (dedupKey key l).filter (fun a => key a == k) =
      (l.filter (fun a => key a == k)).take 1 := by
  cases l with
  | nil => rfl
  | cons x xs =>
    by_cases hxk : key x = k
    · rw [dedupKey, List.filter_cons, if_pos (by simp [hxk]),
        filter_dedupKeyAux_eq_nil key k x xs h hxk,
        List.filter_cons, if_pos (by simp [hxk])]
      simp
    · rw [dedupKey, List.filter_cons, if_neg (by simp [hxk]),
        List.filter_cons, if_neg (by simp [hxk])]
      exact filter_dedupKeyAux_ne key k x xs h hxk

theorem find?_eq_head?_filterL (l : List α) (p : α → Bool) :
    l.find? p = (l.filter p).head? := by
  induction l with
  | nil => rfl
  | cons x xs ih =>
    cases h : p x with
    | true => rw [List.find?_cons_of_pos _ h, List.filter_cons, if_pos h]; rfl
    | false =>
      have hne : ¬ p x = true := by rw [h]; exact Bool.false_ne_true
      rw [List.find?_cons_of_neg _ hne, List.filter_cons, if_neg hne, ih]

/-! ## Claim C2 -/

/-- C2: for every pair of scanned candidates sharing the same identifier, the
sort-by-identifier + collapse-adjacent deduplication retains exactly the
candidate that appeared first in the fixed root-scan order (the input order of
the metadata list); deduplication runs before the extraction pool is ever
consulted, so the result is independent of extraction scheduling. -/
theorem c2_dedup_keeps_first_in_scan_order (l : List AppMetadata) (i : String)
    (w : AppMetadata) (h : l.find? (fun a => a.bundle_id == i) = some w) :
    (dedup_apps l).filter (fun a => a.bundle_id == i) = [w] := by
  have hsorted := sortKey_pairwise (fun m : AppMetadata => m.bundle_id) l
  have h1 := filter_dedupKey (fun m : AppMetadata => m.bundle_id) i
    (sortKey (fun m : AppMetadata => m.bundle_id) l) hsorted
  have h2 := filter_sortKey (fun m : AppMetadata => m.bundle_id) i l
  have h3 := find?_eq_head?_filterL l (fun a => a.bundle_id == i)
  rw [h] at h3
  have h4 : (dedup_apps l).filter (fun a => a.bundle_id == i) =
      (l.filter (fun a => a.bundle_id == i)).take 1 :=
    h1.trans (congrArg (List.take 1) h2)
  rw [h4]
  cases hf : l.filter (fun a => a.bundle_id == i) with
  | nil => rw [hf] at h3; simp at h3
  | cons a t =>
    rw [hf] at h3
    simp at h3
    simp [h3, List.take]

/-- Witness for C2: of two candidates sharing `com.x.alpha`, only the one
first in scan order survives deduplication. -/
theorem c2_dedup_keeps_first_in_scan_order_witness :
    (dedup_apps [mC2a, mC2b]).filter (fun a => a.bundle_id == "com.x.alpha") = [mC2a] :=
  c2_dedup_keeps_first_in_scan_order [mC2a, mC2b] "com.x.alpha" mC2a (by rfl)

/-! ## Claim C9 -/

/-- C9: every record returned by the fast-mode scan core has no icon, and the
returned list is sorted by case-insensitive (lowercased) name. -/
theorem c9_fast_scan_no_icons_and_sorted (metas : List AppMetadata) :
    (∀ a ∈ get_installed_apps_fast_core metas, a.icon = none) ∧
    (get_installed_apps_fast_core metas).Pairwise
      (fun a b => lowerStr a.name ≤ lowerStr b.name) := by
  constructor
  · intro a ha
    obtain ⟨m, _, rfl⟩ := List.mem_map.mp ha
    rfl
  · have hp := sortKey_pairwise (fun m : AppMetadata => lowerStr m.name) (dedup_apps metas)
    exact List.Pairwise.map metaToApp (fun a b hab => hab) hp

/-- Witness for C9 at a concrete scan result. -/
theorem c9_fast_scan_no_icons_and_sorted_witness :
    (get_installed_apps_fast_core [mC2b, mC2a]).Pairwise
      (fun a b => lowerStr a.name ≤ lowerStr b.name) :=
  (c9_fast_scan_no_icons_and_sorted [mC2b, mC2a]).2

/-! ## Lemmas: chunking and the progressive event stream -/

theorem chunksOfAux_fuel (n : Nat) :
    ∀ (f1 f2 : Nat) (l : List α), l.length ≤ f1 → l.length ≤ f2 →
      chunksOfAux (n + 1) f1 l = chunksOfAux (n + 1) f2 l := by
  intro f1
  induction f1 with
  | zero =>
    intro f2 l h1 _
    have hl : l = [] := List.length_eq_zero.mp (Nat.le_zero.mp h1)
    subst hl
    cases f2 <;> rfl
  | succ f ih =>
    intro f2 l h1 h2
    cases l with
    | nil => cases f2 <;> rfl
    | cons x xs =>
      cases f2 with
      | zero => simp at h2
      | succ f2' =>
        simp only [chunksOfAux]
        congr 1
        apply ih
        · simp only [List.length_drop, List.length_cons]
          simp only [List.length_cons] at h1
          omega
        · simp only [List.length_drop, List.length_cons]
          simp only [List.length_cons] at h2
          omega

theorem chunksOf_cons (n : Nat) (x : α) (xs : List α) :
    chunksOf (n + 1) (x :: xs) =
      (x :: xs).take (n + 1) :: chunksOf (n + 1) ((x :: xs).drop (n + 1)) := by
  show chunksOfAux (n + 1) (xs.length + 1) (x :: xs) = _
  simp only [chunksOfAux]
  congr 1
  apply chunksOfAux_fuel
  · simp only [List.length_drop, List.length_cons]
    omega
  · exact le_rfl

theorem flatten_chunksOfAux (n : Nat) :
    ∀ (fuel : Nat) (l : List α), l.length ≤ fuel → (chunksOf (n + 1) l).flatten = l := by
  intro fuel
  induction fuel with
  | zero =>
    intro l h
    have hl : l = [] := List.length_eq_zero.mp (Nat.le_zero.mp h)
    subst hl
    rfl
  | succ f ih =>
    intro l h
    cases l with
    | nil => rfl
    | cons x xs =>
      rw [chunksOf_cons, List.flatten_cons,
        ih ((x :: xs).drop (n + 1))
          (by simp only [List.length_drop, List.length_cons]
              simp only [List.length_cons] at h
              omega)]
      exact List.take_append_drop _ _

theorem flatten_chunksOf (n : Nat) (l : List α) : (chunksOf (n + 1) l).flatten = l :=
  flatten_chunksOfAux n l.length l le_rfl

theorem mem_chunksOf (n : Nat) :
    ∀ (fuel : Nat) (l : List α) (c : List α), l.length ≤ fuel →
      c ∈ chunksOf (n + 1) l → c.length ≤ n + 1 ∧ c ≠ [] := by
  intro fuel
  induction fuel with
  | zero =>
    intro l c h hc
    have hl : l = [] := List.length_eq_zero.mp (Nat.le_zero.mp h)
    subst hl
    simp [chunksOf, chunksOfAux] at hc
  | succ f ih =>
    intro l c h hc
    cases l with
    | nil => simp [chunksOf, chunksOfAux] at hc
    | cons x xs =>
      rw [chunksOf_cons] at hc
      rcases List.mem_cons.mp hc with rfl | hc
      · refine ⟨List.length_take_le _ _, ?_⟩
        simp [List.take_succ_cons]
      · exact ih _ c
          (by simp only [List.length_drop, List.length_cons]
              simp only [List.length_cons] at h
              omega) hc

theorem filterMap_batch_eq (L : List (List IconUpdate)) :
    (L.filterMap fun u => if u.isEmpty then none else some (Event.batch u)) =
      (L.filter (fun u => !u.isEmpty)).map Event.batch := by
  induction L with
  | nil => rfl
  | cons u us ih =>
    cases hu : u.isEmpty <;>
      simp [List.filterMap_cons, List.filter_cons, hu, ih]

theorem flatten_filter_not_isEmpty (L : List (List IconUpdate)) :
    (L.filter (fun u => !u.isEmpty)).flatten = L.flatten := by
  induction L with
  | nil => rfl
  | cons u us ih =>
    cases hu : u.isEmpty
    · simp [List.filter_cons, hu, ih]
    · have hnil : u = [] := List.isEmpty_iff.mp hu
      simp [List.filter_cons, hu, ih, hnil]

theorem filterMap_flatten (f : α → Option γ) (L : List (List α)) :
    (L.map (List.filterMap f)).flatten = (L.flatten).filterMap f := by
  induction L with
  | nil => rfl
  | cons l ls ih =>
    rw [List.map_cons, List.flatten_cons, List.flatten_cons, List.filterMap_append, ih]

/-! ## Claim C3 -/

/-- C3: on every deduplicated candidate list, the progressive icon loader
emits an ordered sequence of batch pushes followed by exactly one completion
push; every pushed batch is nonempty and holds at most 10 pairs; and the
concatenation of all batch payloads equals the per-candidate extraction
results filtered to the successful ones, in the input order. -/
theorem c3_progressive_batches (ms : List AppMetadata) (extract : String → Option String) :
    ∃ bs : List (List IconUpdate),
      load_app_icons_events ms extract = bs.map Event.batch ++ [Event.complete] ∧
      (∀ u ∈ bs, u ≠ [] ∧ u.length ≤ 10) ∧
      bs.flatten = ms.filterMap
        (fun m => (extract m.actual_app_path).map (fun i => IconUpdate.mk m.bundle_id i)) := by
  refine ⟨((chunksOf 10 (ms.map (fun meta => (meta.bundle_id, extract meta.actual_app_path)))).map
      (fun chunk => chunk.filterMap (fun bi => bi.2.map (fun i => IconUpdate.mk bi.1 i)))).filter
      (fun u => !u.isEmpty), ?_, ?_, ?_⟩
  · simp only [load_app_icons_events]
    rw [filterMap_batch_eq]
  · intro u hu
    rcases List.mem_filter.mp hu with ⟨humem, hne⟩
    obtain ⟨c, hc, rfl⟩ := List.mem_map.mp humem
    refine ⟨by simpa using hne, ?_⟩
    have hcl := (mem_chunksOf 9 _ _ c le_rfl (by exact hc)).1
    exact le_trans (List.length_filterMap_le _ _) hcl
  · rw [flatten_filter_not_isEmpty, filterMap_flatten,
      show (10 : Nat) = 9 + 1 from rfl, flatten_chunksOf, List.filterMap_map]
    rfl

/-- Witness for C3 at a concrete deduplicated list and extractor. -/
theorem c3_progressive_batches_witness :
    ∃ bs : List (List IconUpdate),
      load_app_icons_events [mC2a] (fun _ => none) = bs.map Event.batch ++ [Event.complete] ∧
      (∀ u ∈ bs, u ≠ [] ∧ u.length ≤ 10) ∧
      bs.flatten = [mC2a].filterMap
        (fun m => ((fun _ => (none : Option String)) m.actual_app_path).map
          (fun i => IconUpdate.mk m.bundle_id i)) :=
  c3_progressive_batches [mC2a] (fun _ => none)

/-! ## Claim C10 -/

/-- C10: the fast-scan command and the progressive icon-loading command are
structurally infallible: for every filesystem state, cache state, rasterizer
behaviour and candidate list (covering missing roots, unreadable descriptors,
failed extractions and an unavailable cache), both return the `Ok` variant of
their `Result`. -/
theorem c10_commands_never_error (fs : FS) (σ : CacheFS)
    (rasterize : String → Option (List Nat)) (candidates : List (String × Option String)) :
    (get_installed_apps_fast fs candidates).isOk = true ∧
    ((load_app_icons fs σ rasterize candidates).2).isOk = true :=
  ⟨rfl, rfl⟩

/-! ## Claim C1 -/

theorem parse_app_bundle_fast_path (fs : FS) (app_path : String) (src : Option String)
    (r : AppMetadata) (hr : parse_app_bundle_fast fs app_path src = some r) :
    r.path = app_path := by
  simp only [parse_app_bundle_fast] at hr
  split at hr
  · exact absurd hr (by simp)
  · split at hr
    · exact absurd hr (by simp)
    · split at hr
      · exact absurd hr (by simp)
      · split at hr
        · exact absurd hr (by simp)
        · injection hr with h
          subst h
          rfl

/-- C1 counterexample: `Bar.app` lacks `Contents/Info.plist` and contains a
regular (non-symlink) `WrappedBundle` entry; the entry resolved relative to the
candidate is the entry itself, and its root-level `Info.plist` exists, so the
claim says resolution matches and sets the descriptor to the inner path — but
the code's `fs::read_link` fails on a regular entry, so resolution finds no
descriptor at all and the candidate is rejected. -/
theorem c1_regular_wrapped_bundle_counterexample :
    fsC1.ex "Bar.app/Contents/Info.plist" = false ∧
    fsC1.ex "Bar.app/WrappedBundle" = true ∧
    fsC1.isSymlink "Bar.app/WrappedBundle" = false ∧
    fsC1.ex "Bar.app/WrappedBundle/Info.plist" = true ∧
    resolve_bundle fsC1 "Bar.app" = none := by
  refine ⟨rfl, rfl, rfl, rfl, ?_⟩
  decide

/-- C1 (amended): when the candidate lacks `Contents/Info.plist` and its
`WrappedBundle` entry is a symlink whose target can be read, resolution
resolves the target relative to the candidate, checks the target's
`Contents/Info.plist` first and its root-level `Info.plist` second, and the
first match sets the descriptor and the bundle root to the inner path, while a
parsed record's launch path stays the outer candidate path.  (A regular,
non-symlink entry enters the branch, but `fs::read_link` fails on it, so this
resolution step finds nothing for such entries.) -/
theorem c1_wrapped_bundle_symlink_resolution (fs : FS) (cand target : String)
    (src : Option String)
    (h0 : fs.ex (cand ++ "/Contents/Info.plist") = false)
    (h1 : fs.isSymlink (cand ++ "/WrappedBundle") = true)
    (h2 : fs.readLink (cand ++ "/WrappedBundle") = some target) :
    (fs.ex (cand ++ "/" ++ target ++ "/Contents/Info.plist") = true →
      resolve_bundle fs cand =
        some (cand ++ "/" ++ target ++ "/Contents/Info.plist", cand ++ "/" ++ target)) ∧
    (fs.ex (cand ++ "/" ++ target ++ "/Contents/Info.plist") = false →
      fs.ex (cand ++ "/" ++ target ++ "/Info.plist") = true →
      resolve_bundle fs cand =
        some (cand ++ "/" ++ target ++ "/Info.plist", cand ++ "/" ++ target)) ∧
    (∀ r, parse_app_bundle_fast fs cand src = some r → r.path = cand) := by
  refine ⟨?_, ?_, fun r hr => parse_app_bundle_fast_path fs cand src r hr⟩
  · intro hmac
    simp [resolve_bundle, h0, h1, h2, hmac]
  · intro hmac hios
    simp [resolve_bundle, h0, h1, h2, hmac, hios]

/-- Witness for C1 on the spec's scenario: `Bar.app/WrappedBundle` is a
symlink to `Wrapper/Bar-inner.app` whose `Info.plist` sits at the inner root;
the resolver reports the inner descriptor and inner bundle root. -/
theorem c1_wrapped_bundle_symlink_resolution_witness :
    resolve_bundle fsC1w "Bar.app" =
      some ("Bar.app" ++ "/" ++ "Wrapper/Bar-inner.app" ++ "/Info.plist",
        "Bar.app" ++ "/" ++ "Wrapper/Bar-inner.app") :=
  (c1_wrapped_bundle_symlink_resolution fsC1w "Bar.app" "Wrapper/Bar-inner.app" none
    (by decide) (by decide) (by decide)).2.1 (by decide) (by decide)

/-! ## Claim C5 -/

/-- C5: with a readable standard-layout descriptor dictionary `d`, metadata
extraction takes the name from the display-name field falling back to the
short-name field and yields no record when both are absent; the identifier
falls back to the literal `"unknown"` when the bundle-identifier field is
absent and never fails the record (a record then exists exactly when the name
chain produces one); and a record carrying the tool's own identifier
`red.launchpad` is silently omitted. -/
theorem c5_metadata_extraction (fs : FS) (app_path : String) (src : Option String)
    (d : List (String × PValue))
    (hx : fs.ex (app_path ++ "/Contents/Info.plist") = true)
    (hp : fs.plist (app_path ++ "/Contents/Info.plist") = some (PValue.dict d)) :
    (pGet d "CFBundleDisplayName" = none → pGet d "CFBundleName" = none →
      parse_app_bundle_fast fs app_path src = none) ∧
    (∀ s : String, pGet d "CFBundleDisplayName" = none →
      pGet d "CFBundleName" = some (PValue.str s) →
      ∀ r, parse_app_bundle_fast fs app_path src = some r → r.name = s) ∧
    (pGet d "CFBundleIdentifier" = none →
      ((parse_app_bundle_fast fs app_path src = none ↔
        ((pGet d "CFBundleDisplayName").orElse (fun _ => pGet d "CFBundleName")).bind
          asString = none) ∧
        ∀ r, parse_app_bundle_fast fs app_path src = some r → r.bundle_id = "unknown")) ∧
    ((pGet d "CFBundleIdentifier").bind asString = some "red.launchpad" →
      parse_app_bundle_fast fs app_path src = none) := by
  have hres : resolve_bundle fs app_path =
      some (app_path ++ "/Contents/Info.plist", app_path) := by
    simp [resolve_bundle, hx]
  have hd : (fs.plist (app_path ++ "/Contents/Info.plist")).bind asDict = some d := by
    rw [hp]; rfl
  refine ⟨?_, ?_, ?_, ?_⟩
  · intro h1 h2
    simp [parse_app_bundle_fast, hres, hd, h1, h2, Option.orElse]
  · intro s h1 h2 r hr
    have hn : ((pGet d "CFBundleDisplayName").orElse
        (fun _ => pGet d "CFBundleName")).bind asString = some s := by
      rw [h1, h2]; rfl
    simp only [parse_app_bundle_fast, hres, hd, hn] at hr
    split at hr
    · exact absurd hr (by simp)
    · injection hr with h
      subst h
      rfl
  · intro hid
    constructor
    · cases hn : ((pGet d "CFBundleDisplayName").orElse
          (fun _ => pGet d "CFBundleName")).bind asString with
      | none => simp [parse_app_bundle_fast, hres, hd, hn]
      | some nm => simp [parse_app_bundle_fast, hres, hd, hn, hid]
    · intro r hr
      cases hn : ((pGet d "CFBundleDisplayName").orElse
          (fun _ => pGet d "CFBundleName")).bind asString with
      | none => simp [parse_app_bundle_fast, hres, hd, hn] at hr
      | some nm =>
        simp only [parse_app_bundle_fast, hres, hd, hn, hid] at hr
        split at hr
        · exact absurd hr (by simp)
        · injection hr with h
          subst h
          rfl
  · intro hid
    cases hn : ((pGet d "CFBundleDisplayName").orElse
        (fun _ => pGet d "CFBundleName")).bind asString with
    | none => simp [parse_app_bundle_fast, hres, hd, hn]
    | some nm => simp [parse_app_bundle_fast, hres, hd, hn, hid]

/-- Witness for C5: a descriptor carrying the tool's own identifier is
silently dropped. -/
theorem c5_metadata_extraction_witness :
    parse_app_bundle_fast fsC5 "X.app" none = none :=
  (c5_metadata_extraction fsC5 "X.app" none dC5 (by decide) (by rfl)).2.2.2 (by rfl)

/-! ## Claim C6 -/

/-- C6: tag classification returns at most one tag through the fixed-priority
chain; identifiers containing a Chrome/Edge PWA-profile marker make the
identifier tier abstain; `com.google.chrome` is tagged `browsers` by the
identifier tier regardless of descriptor and name, while
`com.google.chrome.app.abcdef` abstains at the identifier tier and is handled
by the later tiers (here the name tier). -/
theorem c6_tag_priority_and_pwa_exclusion :
    (∀ (d : List (String × PValue)) (bid nm : String),
      (detect_app_tags d bid nm).length ≤ 1) ∧
    (∀ bid : String,
      (containsSubstr (lowerStr bid) ".chrome.app." ||
        containsSubstr (lowerStr bid) ".edge.app.") = true →
      detect_tag_from_bundle_id bid = none) ∧
    (detect_tag_from_bundle_id "com.google.chrome" = some "browsers" ∧
      ∀ (d : List (String × PValue)) (nm : String),
        detect_app_tags d "com.google.chrome" nm = ["browsers"]) ∧
    (detect_tag_from_bundle_id "com.google.chrome.app.abcdef" = none ∧
      ∀ d : List (String × PValue),
        detect_app_tags d "com.google.chrome.app.abcdef" "Google Chrome" = ["browsers"]) := by
  have hb1 : detect_tag_from_bundle_id "com.google.chrome" = some "browsers" := by decide
  have hb2 : detect_tag_from_bundle_id "com.google.chrome.app.abcdef" = none := by decide
  have hb3 : detect_tag_from_app_name "Google Chrome" "com.google.chrome.app.abcdef" =
      some "browsers" := by decide
  refine ⟨?_, ?_, ⟨hb1, ?_⟩, ⟨hb2, ?_⟩⟩
  · intro d bid nm
    unfold detect_app_tags
    split
    · simp
    · split
      · simp
      · split
        · split
          · simp
          · simp
        · simp
  · intro bid h
    simp [detect_tag_from_bundle_id, h]
  · intro d nm
    simp [detect_app_tags, hb1]
  · intro d
    simp [detect_app_tags, hb2, hb3]

/-- Witness for C6: an Edge PWA-profile identifier makes the identifier tier
abstain. -/
theorem c6_tag_priority_and_pwa_exclusion_witness :
    detect_tag_from_bundle_id "org.x.edge.app.demo" = none :=
  c6_tag_priority_and_pwa_exclusion.2.1 "org.x.edge.app.demo" (by decide)

/-! ## Lemmas: base64 encoding is injective on byte lists -/

theorem b64Char_fin_inj : ∀ i j : Fin 64, b64Char i.val = b64Char j.val → i = j := by decide

theorem b64Char_inj (i j : Nat) (hi : i < 64) (hj : j < 64) (h : b64Char i = b64Char j) :
    i = j :=
  congrArg Fin.val (b64Char_fin_inj ⟨i, hi⟩ ⟨j, hj⟩ h)

theorem b64Char_fin_ne_pad : ∀ i : Fin 64, b64Char i.val ≠ '=' := by decide

theorem b64Char_ne_pad (i : Nat) (hi : i < 64) : b64Char i ≠ '=' :=
  b64Char_fin_ne_pad ⟨i, hi⟩

theorem base64Chunk_length (t : List Nat) (h1 : t ≠ []) (h3 : t.length ≤ 3) :
    (base64Chunk t).length = 4 := by
  rcases t with _ | ⟨a, _ | ⟨b, _ | ⟨c, _ | t⟩⟩⟩
  · exact absurd rfl h1
  · rfl
  · rfl
  · rfl
  · simp at h3

theorem base64Chunk_inj (t1 t2 : List Nat) (hne1 : t1 ≠ []) (hl1 : t1.length ≤ 3)
    (hne2 : t2 ≠ []) (hl2 : t2.length ≤ 3) (hb1 : ∀ x ∈ t1, x < 256)
    (hb2 : ∀ x ∈ t2, x < 256) (heq : base64Chunk t1 = base64Chunk t2) : t1 = t2 := by
  rcases t1 with _ | ⟨a, _ | ⟨b, _ | ⟨c, _ | t⟩⟩⟩
  · exact absurd rfl hne1
  case cons.cons.cons.cons => simp at hl1
  all_goals rcases t2 with _ | ⟨a', _ | ⟨b', _ | ⟨c', _ | t'⟩⟩⟩
  all_goals try exact absurd rfl hne2
  all_goals try simp at hl2
  -- same-shape and mismatched-shape cases remain
  · -- [a] vs [a']
    have ha : a < 256 := hb1 a (by simp)
    have ha' : a' < 256 := hb2 a' (by simp)
    simp only [base64Chunk, List.cons.injEq, and_true] at heq
    have e1 := b64Char_inj (a / 4) (a' / 4) (by omega) (by omega) heq.1
    have e2 := b64Char_inj (a % 4 * 16) (a' % 4 * 16) (by omega) (by omega) heq.2
    have : a = a' := by omega
    simp [this]
  · -- [a] vs [a', b']
    have hb' : b' < 256 := hb2 b' (by simp)
    simp only [base64Chunk, List.cons.injEq] at heq
    exact absurd heq.2.2.1.symm (b64Char_ne_pad _ (by omega))
  · -- [a] vs [a', b', c']
    have hb' : b' < 256 := hb2 b' (by simp)
    have hc' : c' < 256 := hb2 c' (by simp)
    simp only [base64Chunk, List.cons.injEq] at heq
    exact absurd heq.2.2.1.symm (b64Char_ne_pad _ (by omega))
  · -- [a, b] vs [a']
    have hb : b < 256 := hb1 b (by simp)
    simp only [base64Chunk, List.cons.injEq] at heq
    exact absurd heq.2.2.1 (b64Char_ne_pad _ (by omega))
  · -- [a, b] vs [a', b']
    have ha : a < 256 := hb1 a (by simp)
    have hb : b < 256 := hb1 b (by simp)
    have ha' : a' < 256 := hb2 a' (by simp)
    have hb' : b' < 256 := hb2 b' (by simp)
    simp only [base64Chunk, List.cons.injEq, and_true] at heq
    have e1 := b64Char_inj (a / 4) (a' / 4) (by omega) (by omega) heq.1
    have e2 := b64Char_inj (a % 4 * 16 + b / 16) (a' % 4 * 16 + b' / 16)
      (by omega) (by omega) heq.2.1
    have e3 := b64Char_inj (b % 16 * 4) (b' % 16 * 4) (by omega) (by omega) heq.2.2
    have hae : a = a' := by omega
    have hbe : b = b' := by omega
    simp [hae, hbe]
  · -- [a, b] vs [a', b', c']
    have hc' : c' < 256 := hb2 c' (by simp)
    simp only [base64Chunk, List.cons.injEq] at heq
    exact absurd heq.2.2.2.1.symm (b64Char_ne_pad _ (by omega))
  · -- [a, b, c] vs [a']
    have hb : b < 256 := hb1 b (by simp)
    have hc : c < 256 := hb1 c (by simp)
    simp only [base64Chunk, List.cons.injEq] at heq
    exact absurd heq.2.2.1 (b64Char_ne_pad _ (by omega))
  · -- [a, b, c] vs [a', b']
    have hc : c < 256 := hb1 c (by simp)
    simp only [base64Chunk, List.cons.injEq] at heq
    exact absurd heq.2.2.2.1 (b64Char_ne_pad _ (by omega))
  · -- [a, b, c] vs [a', b', c']
    have ha : a < 256 := hb1 a (by simp)
    have hb : b < 256 := hb1 b (by simp)
    have hc : c < 256 := hb1 c (by simp)
    have ha' : a' < 256 := hb2 a' (by simp)
    have hb' : b' < 256 := hb2 b' (by simp)
    have hc' : c' < 256 := hb2 c' (by simp)
    simp only [base64Chunk, List.cons.injEq, and_true] at heq
    have e1 := b64Char_inj (a / 4) (a' / 4) (by omega) (by omega) heq.1
    have e2 := b64Char_inj (a % 4 * 16 + b / 16) (a' % 4 * 16 + b' / 16)
      (by omega) (by omega) heq.2.1
    have e3 := b64Char_inj (b % 16 * 4 + c / 64) (b' % 16 * 4 + c' / 64)
      (by omega) (by omega) heq.2.2.1
    have e4 := b64Char_inj (c % 64) (c' % 64) (by omega) (by omega) heq.2.2.2
    have hae : a = a' := by omega
    have hbe : b = b' := by omega
    have hce : c = c' := by omega
    simp [hae, hbe, hce]

theorem base64_chars_cons (x : Nat) (xs : List Nat) :
    ((chunksOf 3 (x :: xs)).map base64Chunk).flatten =
      base64Chunk ((x :: xs).take 3) ++
        ((chunksOf 3 ((x :: xs).drop 3)).map base64Chunk).flatten := by
  rw [show (3 : Nat) = 2 + 1 from rfl, chunksOf_cons, List.map_cons, List.flatten_cons]

theorem base64Encode_nil_ne_cons (y : Nat) (ys : List Nat) :
    base64Encode [] ≠ base64Encode (y :: ys) := by
  intro heq
  have hchars := congrArg String.data heq
  rw [show (base64Encode []).data = ([] : List Char) from rfl,
    show (base64Encode (y :: ys)).data =
      ((chunksOf 3 (y :: ys)).map base64Chunk).flatten from rfl,
    base64_chars_cons y ys] at hchars
  have hlen := congrArg List.length hchars
  rw [List.length_append,
    base64Chunk_length _ (by simp) (List.length_take_le _ _)] at hlen
  simp only [List.length_nil] at hlen
  omega

theorem base64Encode_inj_aux :
    ∀ (fuel : Nat) (l1 l2 : List Nat), l1.length ≤ fuel →
      (∀ x ∈ l1, x < 256) → (∀ x ∈ l2, x < 256) →
      base64Encode l1 = base64Encode l2 → l1 = l2 := by
  intro fuel
  induction fuel with
  | zero =>
    intro l1 l2 h hb1 hb2 heq
    have hl1 : l1 = [] := List.length_eq_zero.mp (Nat.le_zero.mp h)
    subst hl1
    cases l2 with
    | nil => rfl
    | cons y ys => exact absurd heq (base64Encode_nil_ne_cons y ys)
  | succ f ih =>
    intro l1 l2 h hb1 hb2 heq
    cases l1 with
    | nil =>
      cases l2 with
      | nil => rfl
      | cons y ys => exact absurd heq (base64Encode_nil_ne_cons y ys)
    | cons x xs =>
      cases l2 with
      | nil => exact absurd heq.symm (base64Encode_nil_ne_cons x xs)
      | cons y ys =>
        have hchars := congrArg String.data heq
        rw [show (base64Encode (x :: xs)).data =
            ((chunksOf 3 (x :: xs)).map base64Chunk).flatten from rfl,
          show (base64Encode (y :: ys)).data =
            ((chunksOf 3 (y :: ys)).map base64Chunk).flatten from rfl,
          base64_chars_cons x xs, base64_chars_cons y ys] at hchars
        have hlen4 : (base64Chunk ((x :: xs).take 3)).length =
            (base64Chunk ((y :: ys).take 3)).length := by
          rw [base64Chunk_length _ (by simp) (List.length_take_le _ _),
            base64Chunk_length _ (by simp) (List.length_take_le _ _)]
        rcases List.append_inj hchars hlen4 with ⟨hchunk, hrest⟩
        have htake : (x :: xs).take 3 = (y :: ys).take 3 :=
          base64Chunk_inj _ _ (by simp) (List.length_take_le _ _) (by simp)
            (List.length_take_le _ _)
            (fun z hz => hb1 z (List.mem_of_mem_take hz))
            (fun z hz => hb2 z (List.mem_of_mem_take hz)) hchunk
        have hdrop : (x :: xs).drop 3 = (y :: ys).drop 3 := by
          apply ih ((x :: xs).drop 3) ((y :: ys).drop 3)
          · simp only [List.length_drop, List.length_cons]
            simp only [List.length_cons] at h
            omega
          · exact fun z hz => hb1 z (List.mem_of_mem_drop hz)
          · exact fun z hz => hb2 z (List.mem_of_mem_drop hz)
          · exact congrArg List.asString hrest
        calc x :: xs = (x :: xs).take 3 ++ (x :: xs).drop 3 :=
              (List.take_append_drop _ _).symm
          _ = (y :: ys).take 3 ++ (y :: ys).drop 3 := by rw [htake, hdrop]
          _ = y :: ys := List.take_append_drop _ _

theorem base64Encode_inj (l1 l2 : List Nat) (hb1 : ∀ x ∈ l1, x < 256)
    (hb2 : ∀ x ∈ l2, x < 256) (heq : base64Encode l1 = base64Encode l2) : l1 = l2 :=
  base64Encode_inj_aux l1.length l1 l2 le_rfl hb1 hb2 heq

/-! ## Claim C7 -/

/-- C7: with the cache directory available, `put(key, bytes)` followed by
`get(key)` returns exactly the data-URI base64 encoding of the stored bytes;
and the standard base64 encoding is injective on byte lists, so the returned
payload determines the stored bytes exactly. -/
theorem c7_cache_round_trip (σ : CacheFS) (ckey : String) (png b2 : List Nat)
    (hav : σ.avail = true) :
    load_cached_icon (save_icon_to_cache σ ckey png) ckey =
      some ("data:image/png;base64," ++ base64Encode png) ∧
    ((∀ x ∈ png, x < 256) → (∀ x ∈ b2, x < 256) →
      base64Encode png = base64Encode b2 → png = b2) := by
  constructor
  · simp [load_cached_icon, save_icon_to_cache, hav, dataUriOfPng]
  · exact fun hb1 hb2 heq => base64Encode_inj png b2 hb1 hb2 heq

/-- Witness for C7 on a concrete store, key and payload. -/
theorem c7_cache_round_trip_witness :
    load_cached_icon (save_icon_to_cache cacheOn "k" [1, 2, 3]) "k" =
      some ("data:image/png;base64," ++ base64Encode [1, 2, 3]) :=
  (c7_cache_round_trip cacheOn "k" [1, 2, 3] [] rfl).1

/-! ## Claim C8 -/

/-- C8 counterexample: the descriptor names icon file `Icon` (no extension)
and both `Contents/Resources/Icon` and `Contents/Resources/Icon.icns` exist;
the claim would hand the literal file to the rasterizer first, but the code
hands over `Icon.icns` (the `set_extension` result is tested first). -/
theorem c8_literal_first_counterexample :
    fsC8.ex "A.app/Contents/Resources/Icon" = true ∧
    (extract_app_icon fsC8 cacheOff rastC8 "A.app" dC8).1 ≠
      (extract_icns_as_base64 rastC8 cacheOff "A.app/Contents/Resources/Icon" none).1 ∧
    (extract_app_icon fsC8 cacheOff rastC8 "A.app" dC8).1 =
      (extract_icns_as_base64 rastC8 cacheOff "A.app/Contents/Resources/Icon.icns" none).1 := by
  refine ⟨rfl, ?_, ?_⟩
  · decide
  · decide

/-- C8 (amended): for a descriptor with an icon-file field and a missed cache,
desktop-style resolution looks under `bundle_root/Contents/Resources`; when
the name has no extension it tries the name with `.icns` set (appended) first
and the literal name second, and when the name has an extension both probes
are the literal name; the first existing file is handed to the external
rasterizer. -/
theorem c8_desktop_icon_resolution (fs : FS) (σ : CacheFS)
    (rasterize : String → Option (List Nat)) (app_path icon_file : String)
    (d : List (String × PValue))
    (hck : (((fs.mtime app_path).map (get_icon_cache_key app_path)).bind
      (fun k => load_cached_icon σ k)) = none)
    (hico : (pGet d "CFBundleIconFile").bind asString = some icon_file) :
    (hasDotExt icon_file = false →
      fs.ex (app_path ++ "/Contents/Resources/" ++ icon_file ++ ".icns") = true →
      extract_app_icon fs σ rasterize app_path d =
        extract_icns_as_base64 rasterize σ
          (app_path ++ "/Contents/Resources/" ++ icon_file ++ ".icns")
          ((fs.mtime app_path).map (get_icon_cache_key app_path))) ∧
    (hasDotExt icon_file = false →
      fs.ex (app_path ++ "/Contents/Resources/" ++ icon_file ++ ".icns") = false →
      fs.ex (app_path ++ "/Contents/Resources/" ++ icon_file) = true →
      extract_app_icon fs σ rasterize app_path d =
        extract_icns_as_base64 rasterize σ (app_path ++ "/Contents/Resources/" ++ icon_file)
          ((fs.mtime app_path).map (get_icon_cache_key app_path))) ∧
    (hasDotExt icon_file = true →
      fs.ex (app_path ++ "/Contents/Resources/" ++ icon_file) = true →
      extract_app_icon fs σ rasterize app_path d =
        extract_icns_as_base64 rasterize σ (app_path ++ "/Contents/Resources/" ++ icon_file)
          ((fs.mtime app_path).map (get_icon_cache_key app_path))) := by
  refine ⟨?_, ?_, ?_⟩
  · intro hext hx
    simp [extract_app_icon, hck, hico, desktop_icon_lookup, hext, hx]
  · intro hext hx1 hx2
    simp [extract_app_icon, hck, hico, desktop_icon_lookup, hext, hx1, hx2]
  · intro hext hx
    simp [extract_app_icon, hck, hico, desktop_icon_lookup, hext, hx]

/-- Witness for C8 on the fixture: the `.icns` probe exists and is the path
rasterized. -/
theorem c8_desktop_icon_resolution_witness :
    extract_app_icon fsC8 cacheOff rastC8 "A.app" dC8 =
      extract_icns_as_base64 rastC8 cacheOff
        ("A.app" ++ "/Contents/Resources/" ++ "Icon" ++ ".icns")
        ((fsC8.mtime "A.app").map (get_icon_cache_key "A.app")) :=
  (c8_desktop_icon_resolution fsC8 cacheOff rastC8 "A.app" "Icon" dC8 rfl rfl).1
    (by decide) (by decide)

/-! ## Lemmas: decimal encoding, digest shape and the cache key -/

theorem decAux_val : ∀ (fuel n : Nat), n ≤ fuel →
    (decAux fuel n).foldr (fun d acc => d + 10 * acc) 0 = n := by
  intro fuel
  induction fuel with
  | zero =>
    intro n h
    have : n = 0 := Nat.le_zero.mp h
    subst this
    rfl
  | succ f ih =>
    intro n h
    by_cases hn : n = 0
    · subst hn; rfl
    · rw [decAux, if_neg hn, List.foldr_cons, ih (n / 10) (by omega)]
      omega

theorem decimalDigits_inj (m n : Nat) (h : decimalDigits m = decimalDigits n) : m = n := by
  by_cases hm : m = 0 <;> by_cases hn : n = 0
  · omega
  · exfalso
    subst hm
    rw [decimalDigits, if_pos rfl, decimalDigits, if_neg hn] at h
    have h2 : decAux n n = [0] := by
      have := congrArg List.reverse h
      simpa using this.symm
    have v := decAux_val n n le_rfl
    rw [h2] at v
    simp at v
    omega
  · exfalso
    subst hn
    rw [decimalDigits, if_neg hm, decimalDigits, if_pos rfl] at h
    have h2 : decAux m m = [0] := by
      have := congrArg List.reverse h
      simpa using this
    have v := decAux_val m m le_rfl
    rw [h2] at v
    simp at v
    omega
  · rw [decimalDigits, if_neg hm, decimalDigits, if_neg hn] at h
    have h2 : decAux m m = decAux n n := by
      have := congrArg List.reverse h
      simpa using this
    have v1 := decAux_val m m le_rfl
    have v2 := decAux_val n n le_rfl
    rw [h2] at v1
    exact v1.symm.trans v2

theorem decimalBytes_inj (m n : Nat) (h : decimalBytes m = decimalBytes n) : m = n := by
  apply decimalDigits_inj
  have hinj : Function.Injective (fun d : Nat => 48 + d) := fun a b hab => by simpa using hab
  exact List.map_injective_iff.mpr hinj h

theorem sha_input_inj_mtime (p : String) (t1 t2 : Nat)
    (h : sha_input p t1 = sha_input p t2) : t1 = t2 :=
  decimalBytes_inj t1 t2 (List.append_cancel_left h)

theorem digestBytes_length (H : Hash8) : (digestBytes H).length = 32 := rfl

theorem sha256_length (msg : List Nat) : (sha256 msg).length = 32 :=
  digestBytes_length _

theorem length_flatMap_hexByte (l : List Nat) : (l.flatMap hexByte).length = 2 * l.length := by
  induction l with
  | nil => rfl
  | cons b rest ih =>
    rw [List.flatMap_cons, List.length_append, ih]
    simp only [List.length_cons]
    have : (hexByte b).length = 2 := rfl
    omega

theorem get_icon_cache_key_length (p : String) (t : Nat) :
    (get_icon_cache_key p t).length = 16 := by
  show (((sha256 (sha_input p t)).flatMap hexByte).take 16).length = 16
  rw [List.length_take, length_flatMap_hexByte, sha256_length]
  omega

/-! ## Claim C4 -/

set_option maxRecDepth 400000 in
/-- C4 counterexample: two concrete distinct modification times, both inside
the `u64` range of `as_secs()`, whose cache keys for the same bundle path
coincide (both are `f953526eab79e533`): the key keeps only 64 digest bits, so
a birthday search over the real SHA-256 yields this collision, and changing
the modification time does not always change the key. -/
theorem c4_mtime_key_collision_counterexample :
    (7092580650834495026 : Nat) ≠ 5682899494883406444 ∧
    7092580650834495026 < 2 ^ 64 ∧ 5682899494883406444 < 2 ^ 64 ∧
    get_icon_cache_key "/Applications/Foo.app" 7092580650834495026 =
      get_icon_cache_key "/Applications/Foo.app" 5682899494883406444 :=
  ⟨by decide, by decide, by decide, by decide⟩

/-- C4 (amended): the cache key is the first 16 hex characters of sha256 over
the path bytes concatenated with the decimal modification-time string (hence a
16-character key); two derivations at the same path and modification time
agree; and changing the modification time always changes the hashed input
(the decimal encoding is injective), so the key changes except for collisions
of the 64-bit digest truncation — which do occur for in-range `u64` times, as
the concrete counterexample exhibits. -/
theorem c4_cache_key_derivation (p : String) (t1 t2 : Nat) :
    get_icon_cache_key p t1 =
      (((sha256 (strBytes p ++ decimalBytes t1)).flatMap hexByte).take 16).asString ∧
    (get_icon_cache_key p t1).length = 16 ∧
    (t1 = t2 → get_icon_cache_key p t1 = get_icon_cache_key p t2) ∧
    (t1 ≠ t2 → sha_input p t1 ≠ sha_input p t2) := by
  refine ⟨rfl, get_icon_cache_key_length p t1, fun h => by rw [h], ?_⟩
  intro hne hcontra
  exact hne (sha_input_inj_mtime p t1 t2 hcontra)

/-- Witness for C4 at a concrete path and two concrete times. -/
theorem c4_cache_key_derivation_witness : sha_input "a" 0 ≠ sha_input "a" 1 :=
  (c4_cache_key_derivation "a" 0 1).2.2.2 (by omega)

end Launchpad
